import Mathlib

/-!
Shallow embedding of the `examStartScreen` quiz component
(src/force-app/main/default/lwc/examStartScreen/examStartScreen.js).

The component's mutable instance fields become an explicit `ExamState`
record; each event handler becomes a state-transformer.  Outbound
interactions (Apex calls, toast events, alerts) are recorded as a list of
`Effect` values returned alongside the new state.  Asynchronous `.then`
callbacks of the remote calls are outside the synchronous state machine
modelled here.  `clearInterval`/`setInterval` are modelled by the boolean
`timerRunning`: a tick of a stopped timer is a no-op producing no effects.
-/

namespace QuizApp

/-- One entry of a question's `optionList` as built by `loadQuestions`. -/
structure QOption where
  label : String
  value : String
  checked : Bool
  cssClass : String
deriving DecidableEq

/-- One entry of `this.questions` as built by `loadQuestions`. -/
structure Question where
  questionId : String
  questionText : String
  optionList : List QOption
  badgeClass : String
  questionNumber : Nat
  reviewed : Bool
deriving DecidableEq

/-- The shape of one record returned by the remote `getQuestionsByExamId`. -/
structure RawQuestion where
  questionId : String
  questionText : String
  options : List String
deriving DecidableEq

/-- Outbound interactions of the component: remote calls, toast, alert. -/
inductive Effect where
  | saveRequest (attendeeId questionId selectedAnswer examId : String)
  | gradingRequest (attendeeId examId : String)
  | toastSuccess
  | alertMsg (msg : String)
deriving DecidableEq

/-- The component's mutable fields. -/
structure ExamState where
  questions : List Question
  currentQuestionIndex : Int
  unansweredQuestionNumbers : List Nat
  showResult : Bool
  questionList : Bool
  minutes : Nat
  seconds : Nat
  timerRunning : Bool
deriving DecidableEq

/-- `const labels = ['A', 'B', 'C', 'D'];` in `loadQuestions`. -/
def labels : List String := ["A", "B", "C", "D"]

/-- JS `labels[i]`: reading past the end of the array yields `undefined`,
which the template literal renders as the string "undefined". -/
def labelAt (i : Nat) : String := (labels.get? i).getD "undefined"

/-- One element of `q.options.map((opt, i) => ...)` in `loadQuestions`. -/
def buildOption (i : Nat) (opt : String) : QOption :=
  { label := labelAt i ++ ": " ++ opt
    value := opt
    checked := false
    cssClass := "option" }

/-- `q.options.map((opt, i) => ...)`: the callback receives the element
and its index. -/
def buildOptions : Nat → List String → List QOption
  | _, [] => []
  | i, opt :: rest => buildOption i opt :: buildOptions (i + 1) rest

/-- One element of `result.map((q, index) => ...)` in `loadQuestions`. -/
def buildQuestion (index : Nat) (q : RawQuestion) : Question :=
  { questionId := q.questionId
    questionText := q.questionText
    optionList := buildOptions 0 q.options
    badgeClass := "badge unanswered"
    questionNumber := index + 1
    reviewed := false }

/-- `result.map((q, index) => ...)`: the callback receives the element and
its index. -/
def buildQuestions : Nat → List RawQuestion → List Question
  | _, [] => []
  | index, q :: rest => buildQuestion index q :: buildQuestions (index + 1) rest

/-- The successful branch of `loadQuestions`: the question array built from
the remote service's result. -/
def loadQuestions (raw : List RawQuestion) : List Question :=
  buildQuestions 0 raw

/-- Field initialisers of the component (before `connectedCallback`). -/
def initialState : ExamState :=
  { questions := []
    currentQuestionIndex := 0
    unansweredQuestionNumbers := []
    showResult := false
    questionList := false
    minutes := 2
    seconds := 0
    timerRunning := false }

/-- State after `connectedCallback` ran (`startTimer` called) and the
question load resolved successfully with `raw`. -/
def loadedState (raw : List RawQuestion) : ExamState :=
  { initialState with
    timerRunning := true
    questionList := true
    questions := loadQuestions raw }

/-- JS `this.questions[i]`: `undefined` when `i` is out of range.  All
handlers that use the current question dereference the result at once, so
an out-of-range index throws before any mutation; the callers below model
that as leaving the state unchanged. -/
def getQ (qs : List Question) (i : Int) : Option Question :=
  if 0 ≤ i then qs.get? i.toNat else none

/-- In-place mutation of the aliased object `this.questions[i]`. -/
def setQ (qs : List Question) (i : Int) (q : Question) : List Question :=
  if 0 ≤ i then qs.set i.toNat q else qs

/-- JS `label.split(':')[0]`: the characters before the first colon. -/
def takeUntilColon : List Char → List Char
  | [] => []
  | c :: cs => if c = ':' then [] else c :: takeUntilColon cs

/-- JS `String.prototype.trim()`: strip whitespace from both ends. -/
def trimChars (cs : List Char) : List Char :=
  ((cs.dropWhile Char.isWhitespace).reverse.dropWhile Char.isWhitespace).reverse

/-- `selected.label.split(':')[0].trim()` in the handlers. -/
def letterOf (label : String) : String :=
  String.mk (trimChars (takeUntilColon label.data))

/-- The `question.optionList.forEach(...)` loop of `handleOptionChange`:
check exactly the options whose value equals the selected one. -/
def updateOptions (optionList : List QOption) (selectedOption : String) : List QOption :=
  optionList.map fun opt =>
    let c := opt.value == selectedOption
    { opt with checked := c, cssClass := if c then "option selected" else "option" }

/-- `updateUnansweredTracking()`: recompute membership of the current
display number in `unansweredQuestionNumbers`. -/
def updateUnansweredTracking (st : ExamState) : ExamState :=
  match getQ st.questions st.currentQuestionIndex with
  | none => st
  | some question =>
    let questionNumber := st.currentQuestionIndex.toNat + 1
    if question.optionList.any (fun o => o.checked) then
      { st with unansweredQuestionNumbers :=
          st.unansweredQuestionNumbers.filter (fun num => num != questionNumber) }
    else
      if st.unansweredQuestionNumbers.contains questionNumber then st
      else
        { st with unansweredQuestionNumbers :=
            st.unansweredQuestionNumbers ++ [questionNumber] }

/-- `handleOptionChange(event)` with `event.target.dataset.option =
selectedOption`. -/
def handleOptionChange (attendeeId examId selectedOption : String) (st : ExamState) :
    ExamState × List Effect :=
  match getQ st.questions st.currentQuestionIndex with
  | none => (st, [])
  | some question =>
    let newOpts := updateOptions question.optionList selectedOption
    let question1 :=
      if newOpts.any (fun o => o.checked) then
        { question with
          optionList := newOpts
          reviewed := false
          badgeClass := "badge answered" }
      else
        { question with
          optionList := newOpts
          badgeClass := if question.reviewed then "badge review" else "badge unanswered" }
    let st1 := { st with questions := setQ st.questions st.currentQuestionIndex question1 }
    let st2 := updateUnansweredTracking st1
    match newOpts.find? (fun o => o.checked) with
    | some selected =>
        (st2, [Effect.saveRequest attendeeId question.questionId (letterOf selected.label) examId])
    | none => (st2, [])

/-- `handleReview()`. -/
def handleReview (st : ExamState) : ExamState :=
  match getQ st.questions st.currentQuestionIndex with
  | none => st
  | some question =>
    { st with
      questions := setQ st.questions st.currentQuestionIndex
        { question with reviewed := true, badgeClass := "badge review" } }

/-- `handleNext()`. -/
def handleNext (st : ExamState) : ExamState :=
  let st1 := updateUnansweredTracking st
  if st1.currentQuestionIndex < (st1.questions.length : Int) - 1 then
    { st1 with currentQuestionIndex := st1.currentQuestionIndex + 1 }
  else st1

/-- `handlePrevious()`. -/
def handlePrevious (st : ExamState) : ExamState :=
  let st1 := updateUnansweredTracking st
  if 0 < st1.currentQuestionIndex then
    { st1 with currentQuestionIndex := st1.currentQuestionIndex - 1 }
  else st1

/-- The `this.questions.forEach((question, index) => ...)` scan of
`handleSubmit`: collect `index + 1` for every question without a checked
option, in order. -/
def unansweredScanAux : Nat → List Question → List Nat
  | _, [] => []
  | index, q :: rest =>
    if q.optionList.any (fun o => o.checked) then unansweredScanAux (index + 1) rest
    else (index + 1) :: unansweredScanAux (index + 1) rest

/-- The full unanswered scan of `handleSubmit`, starting at index 0. -/
def unansweredScan (qs : List Question) : List Nat := unansweredScanAux 0 qs

/-- `handleSubmit()`: stop the timer, rebuild the unanswered list, abort if
it is non-empty, otherwise hide the question view, toast, and request
grading. -/
def handleSubmit (attendeeId examId : String) (st : ExamState) : ExamState × List Effect :=
  let st1 := { st with timerRunning := false }
  let unanswered := unansweredScan st1.questions
  let st2 := { st1 with unansweredQuestionNumbers := unanswered }
  if 0 < unanswered.length then (st2, [])
  else
    let st3 := { st2 with questionList := false }
    (st3, [Effect.toastSuccess, Effect.gradingRequest attendeeId examId])

/-- `handleTimeUp()`: alert, submit, and unconditionally toast. -/
def handleTimeUp (attendeeId examId : String) (st : ExamState) : ExamState × List Effect :=
  let submitted := handleSubmit attendeeId examId st
  (submitted.1,
    Effect.alertMsg "Time is up! Submitting your exam." :: submitted.2 ++ [Effect.toastSuccess])

/-- The digit-run parse at the head of the string, as `parseInt(_, 10)`
does after sign handling: `none` when no leading digit exists (NaN). -/
def parseDigits (cs : List Char) : Option Nat :=
  let ds := cs.takeWhile Char.isDigit
  if ds.isEmpty then none
  else some (ds.foldl (fun acc c => acc * 10 + (c.toNat - 48)) 0)

/-- JS `parseInt(s, 10)`: skip leading whitespace, optional sign, then a
maximal digit run; `none` models NaN. -/
def jsParseInt (s : String) : Option Int :=
  match s.data.dropWhile Char.isWhitespace with
  | '-' :: rest => (parseDigits rest).map (fun n => -(n : Int))
  | '+' :: rest => (parseDigits rest).map (fun n => (n : Int))
  | rest => (parseDigits rest).map (fun n => (n : Int))

/-- `handleBadgeClick(event)` with `event.target.dataset.index = s`:
`parseInt` then assign `index - 1` unless the parse produced NaN. -/
def handleBadgeClick (s : String) (st : ExamState) : ExamState :=
  match jsParseInt s with
  | none => st
  | some index => { st with currentQuestionIndex := index - 1 }

/-- The `get currentQuestion()` getter. -/
def currentQuestion (st : ExamState) : Option Question :=
  getQ st.questions st.currentQuestionIndex

/-- One firing of the `setInterval` callback installed by `startTimer`.
A stopped timer (`clearInterval` already ran) fires nothing. -/
def tick (attendeeId examId : String) (st : ExamState) : ExamState × List Effect :=
  if st.timerRunning then
    if st.seconds = 0 then
      if st.minutes = 0 then
        handleTimeUp attendeeId examId { st with timerRunning := false }
      else ({ st with minutes := st.minutes - 1, seconds := 59 }, [])
    else ({ st with seconds := st.seconds - 1 }, [])
  else (st, [])

/-- `n` consecutive firings of the interval callback, concatenating the
effects they produce. -/
def ticksAcc (attendeeId examId : String) : Nat → ExamState → ExamState × List Effect
  | 0, st => (st, [])
  | n + 1, st =>
    let r1 := tick attendeeId examId st
    let r2 := ticksAcc attendeeId examId n r1.1
    (r2.1, r1.2 ++ r2.2)

/-- The alert `handleTimeUp` shows; its occurrences count forced
submissions. -/
def timeUpAlert : Effect := Effect.alertMsg "Time is up! Submitting your exam."

/-- Number of forced-submission triggers recorded in an effect list. -/
def forcedCount (effs : List Effect) : Nat := effs.count timeUpAlert

/-- The (attendeeId, examId) payloads of the grading requests in an effect
list. -/
def gradingRequests (effs : List Effect) : List (String × String) :=
  effs.filterMap fun eff =>
    match eff with
    | Effect.gradingRequest a2 e2 => some (a2, e2)
    | _ => none

/-- The user-level operations of the component. -/
inductive Op where
  | selectOption (value : String)
  | markForReview
  | next
  | previous
  | jumpTo (input : String)
  | submit
deriving DecidableEq

/-- The state change of one operation (its effects discarded). -/
def step (attendeeId examId : String) (st : ExamState) : Op → ExamState
  | Op.selectOption v => (handleOptionChange attendeeId examId v st).1
  | Op.markForReview => handleReview st
  | Op.next => handleNext st
  | Op.previous => handlePrevious st
  | Op.jumpTo s => handleBadgeClick s st
  | Op.submit => (handleSubmit attendeeId examId st).1

/-- Run a sequence of operations from a state. -/
def run (attendeeId examId : String) (st : ExamState) (ops : List Op) : ExamState :=
  ops.foldl (step attendeeId examId) st

/-- Number of checked options of a question. -/
def countChecked (q : Question) : Nat := q.optionList.countP (fun o => o.checked)

/-- Navigation operations whose jump targets are display numbers of the
loaded sequence. -/
def navOpInRange (len : Nat) : Op → Prop
  | Op.next => True
  | Op.previous => True
  | Op.jumpTo s => ∃ n : Int, jsParseInt s = some n ∧ 1 ≤ n ∧ n ≤ (len : Int)
  | _ => False

/-- Every question of the state has at most one checked option. -/
def checkedInv (st : ExamState) : Prop :=
  ∀ q ∈ st.questions, countChecked q ≤ 1

/-- Every question of the state has pairwise distinct option values. -/
def valuesNodup (st : ExamState) : Prop :=
  ∀ q ∈ st.questions, (q.optionList.map fun o => o.value).Nodup

/-- A two-question fixture matching the spec's loader example. -/
def exRaw : List RawQuestion :=
  [{ questionId := "q1", questionText := "t1", options := ["x", "y"] },
   { questionId := "q2", questionText := "t2", options := ["p", "q", "r"] }]

/-- A fixture whose single question repeats the same option value. -/
def dupRaw : List RawQuestion :=
  [{ questionId := "q1", questionText := "t1", options := ["x", "x"] }]

/-- A fixture whose single question has five options. -/
def fiveRaw : List RawQuestion :=
  [{ questionId := "q1", questionText := "t1", options := ["a", "b", "c", "d", "e"] }]

/-- A three-question fixture. -/
def threeRaw : List RawQuestion :=
  [{ questionId := "q1", questionText := "t1", options := ["x", "y"] },
   { questionId := "q2", questionText := "t2", options := ["x", "y"] },
   { questionId := "q3", questionText := "t3", options := ["x", "y"] }]

/-! ### Lemmas about the unanswered scan of `handleSubmit` -/

theorem mem_unansweredScanAux (qs : List Question) : ∀ (i n : Nat),
    n ∈ unansweredScanAux i qs ↔
      ∃ j q, qs.get? j = some q ∧ (q.optionList.any fun o => o.checked) = false ∧
        n = i + j + 1 := by
  induction qs with
  | nil => intro i n; simp [unansweredScanAux]
  | cons q rest ih =>
    intro i n
    simp only [unansweredScanAux]
    by_cases hq : (q.optionList.any fun o => o.checked) = true
    · rw [if_pos hq, ih (i + 1) n]
      constructor
      · rintro ⟨j, q2, hget, hfalse, hn⟩
        exact ⟨j + 1, q2, hget, hfalse, by omega⟩
      · rintro ⟨j, q2, hget, hfalse, hn⟩
        match j, hget with
        | 0, hget =>
          rw [show ((q :: rest).get? 0) = some q from rfl] at hget
          cases hget
          rw [hfalse] at hq
          cases hq
        | j + 1, hget => exact ⟨j, q2, hget, hfalse, by omega⟩
    · have hq2 : (q.optionList.any fun o => o.checked) = false := by
        revert hq; cases q.optionList.any fun o => o.checked <;> simp
      rw [if_neg hq]
      constructor
      · intro hmem
        rcases List.mem_cons.mp hmem with h1 | h2
        · exact ⟨0, q, rfl, hq2, by omega⟩
        · rcases (ih (i + 1) n).mp h2 with ⟨j, q2, hget, hfalse, hn⟩
          exact ⟨j + 1, q2, hget, hfalse, by omega⟩
      · rintro ⟨j, q2, hget, hfalse, hn⟩
        match j, hget with
        | 0, hget =>
          rw [show ((q :: rest).get? 0) = some q from rfl] at hget
          cases hget
          exact List.mem_cons.mpr (Or.inl (by omega))
        | j + 1, hget =>
          exact List.mem_cons.mpr
            (Or.inr ((ih (i + 1) n).mpr ⟨j, q2, hget, hfalse, by omega⟩))

theorem lt_of_mem_unansweredScanAux (qs : List Question) : ∀ (i n : Nat),
    n ∈ unansweredScanAux i qs → i < n := by
  induction qs with
  | nil => intro i n h; simp [unansweredScanAux] at h
  | cons q rest ih =>
    intro i n h
    simp only [unansweredScanAux] at h
    by_cases hq : (q.optionList.any fun o => o.checked) = true
    · rw [if_pos hq] at h
      have := ih (i + 1) n h
      omega
    · rw [if_neg hq] at h
      rcases List.mem_cons.mp h with h1 | h2
      · omega
      · have := ih (i + 1) n h2
        omega

theorem sorted_unansweredScanAux (qs : List Question) : ∀ (i : Nat),
    List.Sorted (fun a b => a < b) (unansweredScanAux i qs) := by
  induction qs with
  | nil => intro i; simp [unansweredScanAux]
  | cons q rest ih =>
    intro i
    simp only [unansweredScanAux]
    by_cases hq : (q.optionList.any fun o => o.checked) = true
    · rw [if_pos hq]; exact ih (i + 1)
    · rw [if_neg hq]
      rw [List.sorted_cons]
      refine ⟨fun b hb => ?_, ih (i + 1)⟩
      have := lt_of_mem_unansweredScanAux rest (i + 1) b hb
      omega

theorem unansweredScanAux_eq_nil (qs : List Question)
    (h : ∀ q ∈ qs, (q.optionList.any fun o => o.checked) = true) : ∀ (i : Nat),
    unansweredScanAux i qs = [] := by
  induction qs with
  | nil => intro i; rfl
  | cons q rest ih =>
    intro i
    simp only [unansweredScanAux]
    rw [if_pos (h q (List.mem_cons_self q rest))]
    exact ih (fun q2 hq2 => h q2 (List.mem_cons_of_mem q hq2)) (i + 1)

theorem unansweredScan_ne_nil (qs : List Question)
    (h : ∃ q ∈ qs, (q.optionList.any fun o => o.checked) = false) :
    unansweredScan qs ≠ [] := by
  rcases h with ⟨q, hqmem, hq⟩
  rcases List.get?_of_mem hqmem with ⟨j, hget⟩
  have : (j + 1) ∈ unansweredScan qs :=
    (mem_unansweredScanAux qs 0 (j + 1)).mpr ⟨j, q, hget, hq, by omega⟩
  intro hnil
  rw [hnil] at this
  cases this

/-! ### Characterisation of `handleSubmit` -/

theorem handleSubmit_eq_of_unanswered (a e : String) (st : ExamState)
    (h : unansweredScan st.questions ≠ []) :
    handleSubmit a e st =
      ({ st with
          timerRunning := false
          unansweredQuestionNumbers := unansweredScan st.questions }, []) := by
  unfold handleSubmit
  rw [if_pos]
  exact List.length_pos.mpr h

theorem handleSubmit_eq_of_answered (a e : String) (st : ExamState)
    (h : unansweredScan st.questions = []) :
    handleSubmit a e st =
      ({ st with
          timerRunning := false
          unansweredQuestionNumbers := []
          questionList := false },
        [Effect.toastSuccess, Effect.gradingRequest a e]) := by
  unfold handleSubmit
  rw [if_neg]
  · rw [show unansweredScan ({ st with timerRunning := false } : ExamState).questions
        = unansweredScan st.questions from rfl, h]
  · rw [show unansweredScan ({ st with timerRunning := false } : ExamState).questions
        = unansweredScan st.questions from rfl, h]
    simp

/-- C1: `submit()` with at least one unanswered question issues no grading
request, and the unanswered list afterwards is exactly the ascending list
of 1-based positions of the questions with no checked option. -/
theorem submit_unanswered_aborts (a e : String) (st : ExamState)
    (h : ∃ q ∈ st.questions, (q.optionList.any fun o => o.checked) = false) :
    (∀ a2 e2, Effect.gradingRequest a2 e2 ∉ (handleSubmit a e st).2) ∧
    List.Sorted (fun x y => x < y) (handleSubmit a e st).1.unansweredQuestionNumbers ∧
    ∀ n : Nat, n ∈ (handleSubmit a e st).1.unansweredQuestionNumbers ↔
      ∃ j q, st.questions.get? j = some q ∧
        (q.optionList.any fun o => o.checked) = false ∧ n = j + 1 := by
  rw [handleSubmit_eq_of_unanswered a e st (unansweredScan_ne_nil st.questions h)]
  refine ⟨?_, sorted_unansweredScanAux st.questions 0, ?_⟩
  · intro a2 e2 hmem
    cases hmem
  intro n
  rw [show ({ st with
      timerRunning := false
      unansweredQuestionNumbers := unansweredScan st.questions } :
      ExamState).unansweredQuestionNumbers = unansweredScan st.questions from rfl]
  rw [show unansweredScan st.questions = unansweredScanAux 0 st.questions from rfl]
  rw [mem_unansweredScanAux st.questions 0 n]
  constructor
  · rintro ⟨j, q, hget, hfalse, hn⟩
    exact ⟨j, q, hget, hfalse, by omega⟩
  · rintro ⟨j, q, hget, hfalse, hn⟩
    exact ⟨j, q, hget, hfalse, by omega⟩

theorem submit_unanswered_aborts_witness :
    (∃ q ∈ (loadedState exRaw).questions,
      (q.optionList.any fun o => o.checked) = false) ∧
    Effect.gradingRequest "att" "ex" ∉ (handleSubmit "att" "ex" (loadedState exRaw)).2 ∧
    List.Sorted (fun x y => x < y)
      (handleSubmit "att" "ex" (loadedState exRaw)).1.unansweredQuestionNumbers :=
  ⟨by decide,
   (submit_unanswered_aborts "att" "ex" (loadedState exRaw) (by decide)).1 "att" "ex",
   (submit_unanswered_aborts "att" "ex" (loadedState exRaw) (by decide)).2.1⟩

/-- C2: `submit()` with every question answered issues exactly one grading
request carrying the attendee and exam identifiers, hides the in-progress
question view, and emits the success toast. -/
theorem submit_all_answered (a e : String) (st : ExamState)
    (h : ∀ q ∈ st.questions, (q.optionList.any fun o => o.checked) = true) :
    gradingRequests (handleSubmit a e st).2 = [(a, e)] ∧
    (handleSubmit a e st).1.questionList = false ∧
    Effect.toastSuccess ∈ (handleSubmit a e st).2 := by
  rw [handleSubmit_eq_of_answered a e st (unansweredScanAux_eq_nil st.questions h 0)]
  exact ⟨rfl, rfl, List.mem_cons_self _ _⟩

theorem submit_all_answered_witness :
    (∀ q ∈ (run "att" "ex" (loadedState exRaw)
        [Op.selectOption "x", Op.next, Op.selectOption "p"]).questions,
      (q.optionList.any fun o => o.checked) = true) ∧
    gradingRequests (handleSubmit "att" "ex" (run "att" "ex" (loadedState exRaw)
      [Op.selectOption "x", Op.next, Op.selectOption "p"])).2 = [("att", "ex")] ∧
    (handleSubmit "att" "ex" (run "att" "ex" (loadedState exRaw)
      [Op.selectOption "x", Op.next, Op.selectOption "p"])).1.questionList = false :=
  ⟨by decide,
   (submit_all_answered "att" "ex" _ (by decide)).1,
   (submit_all_answered "att" "ex" _ (by decide)).2.1⟩

/-! ### Timer lemmas -/

theorem ticksAcc_add (a e : String) (m : Nat) : ∀ (n : Nat) (st : ExamState),
    ticksAcc a e (m + n) st =
      ((ticksAcc a e n (ticksAcc a e m st).1).1,
        (ticksAcc a e m st).2 ++ (ticksAcc a e n (ticksAcc a e m st).1).2) := by
  induction m with
  | zero => intro n st; simp [ticksAcc]
  | succ m ih =>
    intro n st
    rw [Nat.succ_add]
    show ticksAcc a e ((m + n) + 1) st = _
    simp only [ticksAcc]
    rw [ih n (tick a e st).1]
    simp [List.append_assoc]

theorem ticksAcc_stopped (a e : String) : ∀ (n : Nat) (st : ExamState),
    st.timerRunning = false → ticksAcc a e n st = (st, []) := by
  intro n
  induction n with
  | zero => intro st _; rfl
  | succ n ih =>
    intro st h
    have htick : tick a e st = (st, []) := by simp [tick, h]
    simp only [ticksAcc, htick]
    rw [ih st h]
    rfl

theorem ticksAcc_countdown (a e : String) : ∀ (k : Nat) (st : ExamState),
    st.timerRunning = true → 60 * st.minutes + st.seconds = k →
    ticksAcc a e k st = ({ st with minutes := 0, seconds := 0 }, []) := by
  intro k
  induction k with
  | zero =>
    intro st hrun hk
    obtain ⟨qs, ci, un, sr, ql, m, s, tr⟩ := st
    simp only at hk ⊢
    have hm : m = 0 := by omega
    have hs : s = 0 := by omega
    subst hm; subst hs
    rfl
  | succ k ih =>
    intro st hrun hk
    by_cases hs : st.seconds = 0
    · have hm : ¬ st.minutes = 0 := by omega
      have htick : tick a e st =
          ({ st with minutes := st.minutes - 1, seconds := 59 }, []) := by
        simp [tick, hrun, hs, hm]
      have hrest := ih ({ st with minutes := st.minutes - 1, seconds := 59 })
        hrun (by simp only; omega)
      simp only [ticksAcc, htick]
      rw [hrest]
      rfl
    · have htick : tick a e st = ({ st with seconds := st.seconds - 1 }, []) := by
        simp [tick, hrun, hs]
      have hrest := ih ({ st with seconds := st.seconds - 1 })
        hrun (by simp only; omega)
      simp only [ticksAcc, htick]
      rw [hrest]
      rfl

theorem tick_expired (a e : String) (st : ExamState)
    (hrun : st.timerRunning = true) (hm : st.minutes = 0) (hs : st.seconds = 0) :
    tick a e st = handleTimeUp a e { st with timerRunning := false } := by
  simp [tick, hrun, hm, hs]

theorem forcedCount_handleSubmit (a e : String) (st : ExamState) :
    forcedCount (handleSubmit a e st).2 = 0 := by
  simp only [handleSubmit]
  split <;> rfl

theorem handleSubmit_fst_timerRunning (a e : String) (st : ExamState) :
    (handleSubmit a e st).1.timerRunning = false := by
  simp only [handleSubmit]
  split <;> rfl

theorem forcedCount_handleTimeUp (a e : String) (st : ExamState) :
    forcedCount (handleTimeUp a e st).2 = 1 := by
  unfold handleTimeUp forcedCount
  simp only [List.count_cons, List.count_append]
  have h1 : (Effect.alertMsg "Time is up! Submitting your exam." == timeUpAlert) = true := rfl
  have h2 : (Effect.toastSuccess == timeUpAlert) = false := rfl
  rw [h1, h2]
  have h0 := forcedCount_handleSubmit a e st
  unfold forcedCount at h0
  simp [h0]

/-- C3: from minutes=2, seconds=0 with the timer running, 120 ticks trigger
no forced submission, the 121st triggers exactly one, and the timer is then
stopped so every later tick is a no-op producing no effects. -/
theorem timer_121_ticks (a e : String) (st : ExamState)
    (h1 : st.minutes = 2) (h2 : st.seconds = 0) (h3 : st.timerRunning = true) :
    forcedCount (ticksAcc a e 120 st).2 = 0 ∧
    forcedCount (ticksAcc a e 121 st).2 = 1 ∧
    (ticksAcc a e 121 st).1.timerRunning = false ∧
    ∀ n, ticksAcc a e n (ticksAcc a e 121 st).1 = ((ticksAcc a e 121 st).1, []) := by
  have h120 : ticksAcc a e 120 st = ({ st with minutes := 0, seconds := 0 }, []) :=
    ticksAcc_countdown a e 120 st h3 (by omega)
  have hrun0 : ({ st with minutes := 0, seconds := 0 } : ExamState).timerRunning = true := h3
  have htick : tick a e ({ st with minutes := 0, seconds := 0 } : ExamState) =
      handleTimeUp a e { st with minutes := 0, seconds := 0, timerRunning := false } := by
    rw [tick_expired a e _ hrun0 rfl rfl]
  have h121 : ticksAcc a e 121 st =
      ((handleTimeUp a e { st with minutes := 0, seconds := 0, timerRunning := false }).1,
        (handleTimeUp a e { st with minutes := 0, seconds := 0, timerRunning := false }).2) := by
    rw [show (121 : Nat) = 120 + 1 from rfl, ticksAcc_add a e 120 1 st, h120]
    simp only [ticksAcc, htick]
    simp
  have hstop : (ticksAcc a e 121 st).1.timerRunning = false := by
    rw [h121]
    exact handleSubmit_fst_timerRunning a e _
  refine ⟨?_, ?_, hstop, ?_⟩
  · rw [h120]; rfl
  · rw [h121]
    exact forcedCount_handleTimeUp a e _
  · intro n
    exact ticksAcc_stopped a e n _ hstop

theorem timer_121_ticks_witness :
    (loadedState exRaw).minutes = 2 ∧
    forcedCount (ticksAcc "att" "ex" 121 (loadedState exRaw)).2 = 1 ∧
    (ticksAcc "att" "ex" 121 (loadedState exRaw)).1.timerRunning = false :=
  ⟨rfl, (timer_121_ticks "att" "ex" (loadedState exRaw) rfl rfl rfl).2.1,
   (timer_121_ticks "att" "ex" (loadedState exRaw) rfl rfl rfl).2.2.1⟩

/-- C9: when the timer expires with a question unanswered, the forced
submission aborts without a grading request, yet the time-up handler still
dispatches the success toast; the timer is stopped, the in-progress view
stays as it was, and no later tick ever fires. -/
theorem timeUp_unanswered (a e : String) (st : ExamState)
    (h : ∃ q ∈ st.questions, (q.optionList.any fun o => o.checked) = false) :
    (∀ a2 e2, Effect.gradingRequest a2 e2 ∉ (handleTimeUp a e st).2) ∧
    Effect.toastSuccess ∈ (handleTimeUp a e st).2 ∧
    (handleTimeUp a e st).1.timerRunning = false ∧
    (handleTimeUp a e st).1.questionList = st.questionList ∧
    ∀ n, ticksAcc a e n (handleTimeUp a e st).1 = ((handleTimeUp a e st).1, []) := by
  have hsub := handleSubmit_eq_of_unanswered a e st (unansweredScan_ne_nil st.questions h)
  have heff : (handleTimeUp a e st).2 =
      [Effect.alertMsg "Time is up! Submitting your exam.", Effect.toastSuccess] := by
    simp only [handleTimeUp, hsub]
    rfl
  have hfst : (handleTimeUp a e st).1 =
      ({ st with
          timerRunning := false
          unansweredQuestionNumbers := unansweredScan st.questions }) := by
    simp only [handleTimeUp, hsub]
  refine ⟨?_, ?_, ?_, ?_, ?_⟩
  · intro a2 e2 hmem
    rw [heff] at hmem
    rcases List.mem_cons.mp hmem with h1 | h2
    · cases h1
    · rcases List.mem_cons.mp h2 with h3 | h4
      · cases h3
      · cases h4
  · rw [heff]
    exact List.mem_cons_of_mem _ (List.mem_cons_self _ _)
  · rw [hfst]
  · rw [hfst]
  · intro n
    apply ticksAcc_stopped
    rw [hfst]

theorem timeUp_unanswered_witness :
    (∃ q ∈ (loadedState exRaw).questions,
      (q.optionList.any fun o => o.checked) = false) ∧
    Effect.toastSuccess ∈ (handleTimeUp "att" "ex" (loadedState exRaw)).2 ∧
    Effect.gradingRequest "att" "ex" ∉ (handleTimeUp "att" "ex" (loadedState exRaw)).2 :=
  ⟨by decide,
   (timeUp_unanswered "att" "ex" (loadedState exRaw) (by decide)).2.1,
   (timeUp_unanswered "att" "ex" (loadedState exRaw) (by decide)).1 "att" "ex"⟩

/-! ### Loader shape lemmas -/

theorem buildQuestions_length : ∀ (i : Nat) (raw : List RawQuestion),
    (buildQuestions i raw).length = raw.length := by
  intro i raw
  induction raw generalizing i with
  | nil => rfl
  | cons r rest ih => simp [buildQuestions, ih]

theorem buildQuestions_get? : ∀ (raw : List RawQuestion) (i k : Nat),
    (buildQuestions i raw).get? k = (raw.get? k).map fun r => buildQuestion (i + k) r := by
  intro raw
  induction raw with
  | nil => intro i k; rfl
  | cons r rest ih =>
    intro i k
    cases k with
    | zero => rfl
    | succ k =>
      show (buildQuestions (i + 1) rest).get? k =
        (rest.get? k).map fun r2 => buildQuestion (i + (k + 1)) r2
      rw [ih (i + 1) k]
      rw [show (i + 1) + k = i + (k + 1) from by omega]

/-- C8: a jump input parsing to the integer n sets the pointer to n−1 (and
so, for a loaded sequence and an in-range n, makes the current question the
one with display number n); an input that fails to parse is a no-op. -/
theorem jumpTo_pointer (st : ExamState) (s : String) :
    (∀ n : Int, jsParseInt s = some n →
      (handleBadgeClick s st).currentQuestionIndex = n - 1 ∧
      (handleBadgeClick s st).questions = st.questions) ∧
    (jsParseInt s = none → handleBadgeClick s st = st) ∧
    (∀ n : Int, jsParseInt s = some n → ∀ raw : List RawQuestion,
      st.questions = loadQuestions raw → 1 ≤ n → n ≤ (raw.length : Int) →
      ∃ q, currentQuestion (handleBadgeClick s st) = some q ∧
        (q.questionNumber : Int) = n) := by
  refine ⟨?_, ?_, ?_⟩
  · intro n hn
    unfold handleBadgeClick
    rw [hn]
    exact ⟨rfl, rfl⟩
  · intro hn
    unfold handleBadgeClick
    rw [hn]
  · intro n hn raw hload h1 h2
    have hbc : handleBadgeClick s st = { st with currentQuestionIndex := n - 1 } := by
      unfold handleBadgeClick
      rw [hn]
    rw [hbc]
    unfold currentQuestion getQ
    rw [show ({ st with currentQuestionIndex := n - 1 } :
      ExamState).currentQuestionIndex = n - 1 from rfl]
    rw [if_pos (show (0 : Int) ≤ n - 1 by omega)]
    rw [show ({ st with currentQuestionIndex := n - 1 } : ExamState).questions
      = st.questions from rfl, hload]
    unfold loadQuestions
    rw [buildQuestions_get? raw 0 (n - 1).toNat]
    have hlt : (n - 1).toNat < raw.length := by omega
    cases hget : raw.get? (n - 1).toNat with
    | none =>
      rw [List.get?_eq_none] at hget
      omega
    | some r =>
      refine ⟨buildQuestion (0 + (n - 1).toNat) r, rfl, ?_⟩
      simp only [buildQuestion]
      omega

theorem jumpTo_pointer_witness :
    jsParseInt "3" = some 3 ∧
    (handleBadgeClick "3" (loadedState threeRaw)).currentQuestionIndex = 2 ∧
    handleBadgeClick "abc" (loadedState threeRaw) = loadedState threeRaw ∧
    (∃ q, currentQuestion (handleBadgeClick "3" (loadedState threeRaw)) = some q ∧
      (q.questionNumber : Int) = 3) :=
  ⟨by decide,
   by
    rw [((jumpTo_pointer (loadedState threeRaw) "3").1 3 (by decide)).1]
    decide,
   (jumpTo_pointer (loadedState threeRaw) "abc").2.1 (by decide),
   (jumpTo_pointer (loadedState threeRaw) "3").2.2 3 (by decide) threeRaw rfl
    (by decide) (by decide)⟩

/-! ### Navigation lemmas -/

theorem updateUnansweredTracking_questions (st : ExamState) :
    (updateUnansweredTracking st).questions = st.questions := by
  simp only [updateUnansweredTracking]
  split
  · rfl
  · split
    · rfl
    · split <;> rfl

theorem updateUnansweredTracking_index (st : ExamState) :
    (updateUnansweredTracking st).currentQuestionIndex = st.currentQuestionIndex := by
  simp only [updateUnansweredTracking]
  split
  · rfl
  · split
    · rfl
    · split <;> rfl

theorem handleNext_questions (st : ExamState) :
    (handleNext st).questions = st.questions := by
  simp only [handleNext]
  split
  · exact updateUnansweredTracking_questions st
  · exact updateUnansweredTracking_questions st

theorem handlePrevious_questions (st : ExamState) :
    (handlePrevious st).questions = st.questions := by
  simp only [handlePrevious]
  split
  · exact updateUnansweredTracking_questions st
  · exact updateUnansweredTracking_questions st

theorem handleBadgeClick_questions (s : String) (st : ExamState) :
    (handleBadgeClick s st).questions = st.questions := by
  unfold handleBadgeClick
  cases jsParseInt s <;> rfl

theorem handleNext_bounds (st : ExamState)
    (h0 : 0 ≤ st.currentQuestionIndex)
    (h1 : st.currentQuestionIndex < (st.questions.length : Int)) :
    0 ≤ (handleNext st).currentQuestionIndex ∧
    (handleNext st).currentQuestionIndex < (st.questions.length : Int) := by
  simp only [handleNext]
  split
  · rename_i hlt
    rw [updateUnansweredTracking_index st, updateUnansweredTracking_questions st] at hlt
    show 0 ≤ (updateUnansweredTracking st).currentQuestionIndex + 1 ∧
      (updateUnansweredTracking st).currentQuestionIndex + 1 < (st.questions.length : Int)
    rw [updateUnansweredTracking_index st]
    omega
  · rw [updateUnansweredTracking_index st]
    exact ⟨h0, h1⟩

theorem handlePrevious_bounds (st : ExamState)
    (h0 : 0 ≤ st.currentQuestionIndex)
    (h1 : st.currentQuestionIndex < (st.questions.length : Int)) :
    0 ≤ (handlePrevious st).currentQuestionIndex ∧
    (handlePrevious st).currentQuestionIndex < (st.questions.length : Int) := by
  simp only [handlePrevious]
  split
  · rename_i hlt
    rw [updateUnansweredTracking_index st] at hlt
    show 0 ≤ (updateUnansweredTracking st).currentQuestionIndex - 1 ∧
      (updateUnansweredTracking st).currentQuestionIndex - 1 < (st.questions.length : Int)
    rw [updateUnansweredTracking_index st]
    omega
  · rw [updateUnansweredTracking_index st]
    exact ⟨h0, h1⟩

theorem nav_step_bounds (a e : String) (st : ExamState) (op : Op)
    (hop : navOpInRange st.questions.length op)
    (h0 : 0 ≤ st.currentQuestionIndex)
    (h1 : st.currentQuestionIndex < (st.questions.length : Int)) :
    (step a e st op).questions.length = st.questions.length ∧
    0 ≤ (step a e st op).currentQuestionIndex ∧
    (step a e st op).currentQuestionIndex < (st.questions.length : Int) := by
  cases op with
  | selectOption v => cases hop
  | markForReview => cases hop
  | submit => cases hop
  | next =>
    refine ⟨?_, handleNext_bounds st h0 h1⟩
    show (handleNext st).questions.length = st.questions.length
    rw [handleNext_questions st]
  | previous =>
    refine ⟨?_, handlePrevious_bounds st h0 h1⟩
    show (handlePrevious st).questions.length = st.questions.length
    rw [handlePrevious_questions st]
  | jumpTo s =>
    rcases hop with ⟨n, hn, hn1, hn2⟩
    have hbc : handleBadgeClick s st = { st with currentQuestionIndex := n - 1 } := by
      unfold handleBadgeClick
      rw [hn]
    show (handleBadgeClick s st).questions.length = st.questions.length ∧
      0 ≤ (handleBadgeClick s st).currentQuestionIndex ∧
      (handleBadgeClick s st).currentQuestionIndex < (st.questions.length : Int)
    rw [hbc]
    refine ⟨rfl, ?_, ?_⟩
    · show (0 : Int) ≤ n - 1
      omega
    · show n - 1 < (st.questions.length : Int)
      omega

theorem nav_run_bounds (a e : String) : ∀ (ops : List Op) (st : ExamState),
    (∀ op ∈ ops, navOpInRange st.questions.length op) →
    0 ≤ st.currentQuestionIndex →
    st.currentQuestionIndex < (st.questions.length : Int) →
    (run a e st ops).questions.length = st.questions.length ∧
    0 ≤ (run a e st ops).currentQuestionIndex ∧
    (run a e st ops).currentQuestionIndex < ((run a e st ops).questions.length : Int) := by
  intro ops
  induction ops with
  | nil =>
    intro st _ h0 h1
    exact ⟨rfl, h0, h1⟩
  | cons op rest ih =>
    intro st hops h0 h1
    have hstep := nav_step_bounds a e st op (hops op (List.mem_cons_self _ _)) h0 h1
    have hrest := ih (step a e st op)
      (fun op2 hop2 => by rw [hstep.1]; exact hops op2 (List.mem_cons_of_mem _ hop2))
      hstep.2.1 (by rw [hstep.1]; exact hstep.2.2)
    show (run a e (step a e st op) rest).questions.length = st.questions.length ∧ _ ∧ _
    refine ⟨?_, hrest.2.1, hrest.2.2⟩
    rw [hrest.1, hstep.1]

/-- C5 counterexample: from a loaded three-question sequence, the single
navigation operation jumpTo "10" drives the pointer to 9, outside
[0, length). -/
theorem pointer_escapes_on_jumpTo :
    ¬ (0 ≤ (run "att" "ex" (loadedState threeRaw) [Op.jumpTo "10"]).currentQuestionIndex ∧
       (run "att" "ex" (loadedState threeRaw) [Op.jumpTo "10"]).currentQuestionIndex <
         ((run "att" "ex" (loadedState threeRaw)
            [Op.jumpTo "10"]).questions.length : Int)) := by
  decide

/-- C5 amended: after a non-empty load, any sequence of next/previous and
of jumpTo operations whose inputs parse to display numbers within
1..length keeps the pointer within 0 ≤ pointer < length. -/
theorem pointer_in_bounds_nav (a e : String) (raw : List RawQuestion) (hne : raw ≠ [])
    (ops : List Op)
    (hops : ∀ op ∈ ops, navOpInRange (loadedState raw).questions.length op) :
    0 ≤ (run a e (loadedState raw) ops).currentQuestionIndex ∧
    (run a e (loadedState raw) ops).currentQuestionIndex <
      ((run a e (loadedState raw) ops).questions.length : Int) := by
  have hlen : (loadedState raw).questions.length = raw.length := buildQuestions_length 0 raw
  have hpos : 0 < raw.length := by
    cases raw with
    | nil => cases hne rfl
    | cons r rest => simp
  have hidx : (loadedState raw).currentQuestionIndex = 0 := rfl
  have h := nav_run_bounds a e ops (loadedState raw) hops (by omega) (by rw [hlen]; omega)
  exact ⟨h.2.1, h.2.2⟩

theorem pointer_in_bounds_nav_witness :
    threeRaw ≠ [] ∧
    (∀ op ∈ [Op.jumpTo "2", Op.next, Op.previous],
      navOpInRange (loadedState threeRaw).questions.length op) ∧
    (0 ≤ (run "att" "ex" (loadedState threeRaw)
        [Op.jumpTo "2", Op.next, Op.previous]).currentQuestionIndex ∧
      (run "att" "ex" (loadedState threeRaw)
        [Op.jumpTo "2", Op.next, Op.previous]).currentQuestionIndex <
        ((run "att" "ex" (loadedState threeRaw)
          [Op.jumpTo "2", Op.next, Op.previous]).questions.length : Int)) := by
  have hops : ∀ op ∈ [Op.jumpTo "2", Op.next, Op.previous],
      navOpInRange (loadedState threeRaw).questions.length op := by
    intro op hop
    rcases List.mem_cons.mp hop with h1 | h2
    · rw [h1]
      exact ⟨2, by decide, by decide, by decide⟩
    · rcases List.mem_cons.mp h2 with h3 | h4
      · rw [h3]; trivial
      · rcases List.mem_cons.mp h4 with h5 | h6
        · rw [h5]; trivial
        · cases h6
  exact ⟨by decide, hops,
    pointer_in_bounds_nav "att" "ex" threeRaw (by decide)
      [Op.jumpTo "2", Op.next, Op.previous] hops⟩

/-! ### Selection invariant lemmas -/

theorem getQ_mem (qs : List Question) (i : Int) (q : Question)
    (h : getQ qs i = some q) : q ∈ qs := by
  unfold getQ at h
  by_cases hpos : (0 : Int) ≤ i
  · rw [if_pos hpos] at h
    exact List.get?_mem h
  · rw [if_neg hpos] at h
    cases h

theorem mem_setQ (qs : List Question) (i : Int) (qnew q2 : Question)
    (h : q2 ∈ setQ qs i qnew) : q2 ∈ qs ∨ q2 = qnew := by
  unfold setQ at h
  by_cases hpos : (0 : Int) ≤ i
  · rw [if_pos hpos] at h
    exact List.mem_or_eq_of_mem_set h
  · rw [if_neg hpos] at h
    exact Or.inl h

theorem values_updateOptions (l : List QOption) (v : String) :
    ((updateOptions l v).map fun o => o.value) = l.map fun o => o.value := by
  unfold updateOptions
  rw [List.map_map]
  rfl

theorem countChecked_updateOptions (l : List QOption) (v : String)
    (h : (l.map fun o => o.value).Nodup) :
    ((updateOptions l v).countP fun o => o.checked) ≤ 1 := by
  have h1 : ((updateOptions l v).countP fun o => o.checked)
      = l.countP fun o => o.value == v := by
    unfold updateOptions
    rw [List.countP_map]
    rfl
  have h2 : (l.countP fun o => o.value == v)
      = List.count v (l.map fun o => o.value) := by
    rw [List.count_eq_countP, List.countP_map]
    rfl
  rw [h1, h2]
  exact List.nodup_iff_count_le_one.mp h v

theorem handleOptionChange_fst_questions (a e v : String) (st : ExamState) :
    (handleOptionChange a e v st).1.questions =
      match getQ st.questions st.currentQuestionIndex with
      | none => st.questions
      | some question =>
        setQ st.questions st.currentQuestionIndex
          (if (updateOptions question.optionList v).any (fun o => o.checked) then
            { question with
              optionList := updateOptions question.optionList v
              reviewed := false
              badgeClass := "badge answered" }
          else
            { question with
              optionList := updateOptions question.optionList v
              badgeClass :=
                if question.reviewed then "badge review" else "badge unanswered" }) := by
  simp only [handleOptionChange]
  cases getQ st.questions st.currentQuestionIndex with
  | none => rfl
  | some question =>
    dsimp only
    split
    · split <;> rw [updateUnansweredTracking_questions]
    · split <;> rw [updateUnansweredTracking_questions]

theorem handleOptionChange_mem (a e v : String) (st : ExamState) (q2 : Question)
    (hq2 : q2 ∈ (handleOptionChange a e v st).1.questions) :
    q2 ∈ st.questions ∨
      ∃ q ∈ st.questions, q2.optionList = updateOptions q.optionList v := by
  rw [handleOptionChange_fst_questions] at hq2
  revert hq2
  cases hget : getQ st.questions st.currentQuestionIndex with
  | none =>
    intro hq2
    exact Or.inl hq2
  | some question =>
    intro hq2
    have hqmem := getQ_mem st.questions st.currentQuestionIndex question hget
    rcases mem_setQ _ _ _ _ hq2 with h1 | h2
    · exact Or.inl h1
    · right
      refine ⟨question, hqmem, ?_⟩
      rw [h2]
      split <;> rfl

theorem handleReview_mem (st : ExamState) (q2 : Question)
    (hq2 : q2 ∈ (handleReview st).questions) :
    q2 ∈ st.questions ∨ ∃ q ∈ st.questions, q2.optionList = q.optionList := by
  revert hq2
  unfold handleReview
  cases hget : getQ st.questions st.currentQuestionIndex with
  | none =>
    intro hq2
    exact Or.inl hq2
  | some question =>
    dsimp only
    intro hq2
    have hqmem := getQ_mem st.questions st.currentQuestionIndex question hget
    rcases mem_setQ _ _ _ _ hq2 with h1 | h2
    · exact Or.inl h1
    · right
      exact ⟨question, hqmem, by rw [h2]⟩

theorem handleSubmit_fst_questions (a e : String) (st : ExamState) :
    (handleSubmit a e st).1.questions = st.questions := by
  simp only [handleSubmit]
  split <;> rfl

theorem values_buildOptions : ∀ (i : Nat) (opts : List String),
    ((buildOptions i opts).map fun o => o.value) = opts := by
  intro i opts
  induction opts generalizing i with
  | nil => rfl
  | cons o rest ih => simp [buildOptions, buildOption, ih]

theorem countP_checked_buildOptions : ∀ (i : Nat) (opts : List String),
    ((buildOptions i opts).countP fun o => o.checked) = 0 := by
  intro i opts
  induction opts generalizing i with
  | nil => rfl
  | cons o rest ih => simp [buildOptions, buildOption, List.countP_cons, ih]

theorem mem_buildQuestions_optionList : ∀ (i : Nat) (raw : List RawQuestion) (q : Question),
    q ∈ buildQuestions i raw → ∃ r ∈ raw, q.optionList = buildOptions 0 r.options := by
  intro i raw
  induction raw generalizing i with
  | nil =>
    intro q h
    cases h
  | cons r rest ih =>
    intro q h
    rcases List.mem_cons.mp h with h1 | h2
    · exact ⟨r, List.mem_cons_self _ _, by rw [h1]; rfl⟩
    · rcases ih (i + 1) q h2 with ⟨r2, hr2, heq⟩
      exact ⟨r2, List.mem_cons_of_mem _ hr2, heq⟩

theorem inv_of_questions_eq (st1 st2 : ExamState) (h : st2.questions = st1.questions)
    (h1 : checkedInv st1) (h2 : valuesNodup st1) : checkedInv st2 ∧ valuesNodup st2 := by
  constructor
  · intro q hq
    exact h1 q (h ▸ hq)
  · intro q hq
    exact h2 q (h ▸ hq)

theorem step_preserves_checkedInv (a e : String) (st : ExamState) (op : Op)
    (h1 : checkedInv st) (h2 : valuesNodup st) :
    checkedInv (step a e st op) ∧ valuesNodup (step a e st op) := by
  cases op with
  | selectOption v =>
    constructor
    · intro q2 hq2
      rcases handleOptionChange_mem a e v st q2 hq2 with hmem | ⟨q, hqmem, heq⟩
      · exact h1 q2 hmem
      · unfold countChecked
        rw [heq]
        exact countChecked_updateOptions q.optionList v (h2 q hqmem)
    · intro q2 hq2
      rcases handleOptionChange_mem a e v st q2 hq2 with hmem | ⟨q, hqmem, heq⟩
      · exact h2 q2 hmem
      · rw [heq, values_updateOptions]
        exact h2 q hqmem
  | markForReview =>
    constructor
    · intro q2 hq2
      rcases handleReview_mem st q2 hq2 with hmem | ⟨q, hqmem, heq⟩
      · exact h1 q2 hmem
      · unfold countChecked
        rw [heq]
        exact h1 q hqmem
    · intro q2 hq2
      rcases handleReview_mem st q2 hq2 with hmem | ⟨q, hqmem, heq⟩
      · exact h2 q2 hmem
      · rw [heq]
        exact h2 q hqmem
  | next => exact inv_of_questions_eq st (handleNext st) (handleNext_questions st) h1 h2
  | previous =>
    exact inv_of_questions_eq st (handlePrevious st) (handlePrevious_questions st) h1 h2
  | jumpTo s =>
    exact inv_of_questions_eq st (handleBadgeClick s st) (handleBadgeClick_questions s st) h1 h2
  | submit =>
    exact inv_of_questions_eq st (handleSubmit a e st).1 (handleSubmit_fst_questions a e st) h1 h2

theorem run_preserves_checkedInv (a e : String) : ∀ (ops : List Op) (st : ExamState),
    checkedInv st → valuesNodup st → checkedInv (run a e st ops) := by
  intro ops
  induction ops with
  | nil =>
    intro st h1 _
    exact h1
  | cons op rest ih =>
    intro st h1 h2
    have h := step_preserves_checkedInv a e st op h1 h2
    exact ih (step a e st op) h.1 h.2

/-- C4 counterexample: loading a question whose two options carry the same
value "x" and then selecting "x" leaves that question with two checked
options, violating the at-most-one-selected invariant in a reachable
state. -/
theorem duplicate_values_double_check :
    ¬ (∀ q ∈ (run "att" "ex" (loadedState dupRaw) [Op.selectOption "x"]).questions,
        countChecked q ≤ 1) ∧
    ((run "att" "ex" (loadedState dupRaw) [Op.selectOption "x"]).questions.map countChecked)
      = [2] := by
  constructor
  · decide
  · decide

/-- C4 amended: in every state reachable from a freshly loaded question
sequence whose questions each have pairwise distinct option values, every
question has at most one checked option. -/
theorem at_most_one_checked (a e : String) (raw : List RawQuestion)
    (hnd : ∀ r ∈ raw, r.options.Nodup) (ops : List Op) :
    ∀ q ∈ (run a e (loadedState raw) ops).questions, countChecked q ≤ 1 := by
  apply run_preserves_checkedInv
  · intro q hq
    rcases mem_buildQuestions_optionList 0 raw q hq with ⟨r, hr, heq⟩
    unfold countChecked
    rw [heq, countP_checked_buildOptions]
    omega
  · intro q hq
    rcases mem_buildQuestions_optionList 0 raw q hq with ⟨r, hr, heq⟩
    rw [heq, values_buildOptions]
    exact hnd r hr

theorem at_most_one_checked_witness :
    (∀ r ∈ exRaw, r.options.Nodup) ∧
    (∀ q ∈ (run "att" "ex" (loadedState exRaw) [Op.selectOption "x"]).questions,
      countChecked q ≤ 1) :=
  ⟨by decide, at_most_one_checked "att" "ex" exRaw (by decide) [Op.selectOption "x"]⟩

/-! ### Badge transition on selection -/

theorem getQ_setQ (qs : List Question) (i : Int) (q0 q1 : Question)
    (h : getQ qs i = some q0) : getQ (setQ qs i q1) i = some q1 := by
  unfold getQ setQ at *
  by_cases hpos : (0 : Int) ≤ i
  · simp only [if_pos hpos] at h ⊢
    rcases List.get?_eq_some.mp h with ⟨hlt, _⟩
    exact List.get?_set_eq_of_lt q1 hlt
  · rw [if_neg hpos] at h
    cases h

theorem any_updateOptions_of_mem (l : List QOption) (v : String)
    (h : ∃ o ∈ l, o.value = v) :
    ((updateOptions l v).any fun o => o.checked) = true := by
  unfold updateOptions
  rw [List.any_map]
  rcases h with ⟨o, hmem, hval⟩
  rw [List.any_eq_true]
  refine ⟨o, hmem, ?_⟩
  show (o.value == v) = true
  rw [hval]
  simp

theorem handleOptionChange_fst_index (a e v : String) (st : ExamState) :
    (handleOptionChange a e v st).1.currentQuestionIndex = st.currentQuestionIndex := by
  simp only [handleOptionChange]
  cases getQ st.questions st.currentQuestionIndex with
  | none => rfl
  | some question =>
    dsimp only
    split <;> rw [updateUnansweredTracking_index]

/-- C6: selecting any of the current question's option values on a
reviewed question with badge "badge review" leaves that question with
badge "badge answered" and reviewed=false. -/
theorem selectOption_clears_review (a e v : String) (st : ExamState) (q : Question)
    (hq : currentQuestion st = some q)
    (hrev : q.reviewed = true)
    (hbadge : q.badgeClass = "badge review")
    (hv : ∃ o ∈ q.optionList, o.value = v) :
    ∃ q2, currentQuestion (handleOptionChange a e v st).1 = some q2 ∧
      q2.badgeClass = "badge answered" ∧ q2.reviewed = false := by
  have hany := any_updateOptions_of_mem q.optionList v hv
  unfold currentQuestion at hq
  have hqs := handleOptionChange_fst_questions a e v st
  rw [hq] at hqs
  dsimp only at hqs
  rw [if_pos hany] at hqs
  refine ⟨{ q with
      optionList := updateOptions q.optionList v
      reviewed := false
      badgeClass := "badge answered" }, ?_, rfl, rfl⟩
  unfold currentQuestion
  rw [hqs, handleOptionChange_fst_index]
  exact getQ_setQ st.questions st.currentQuestionIndex q _ hq

theorem selectOption_clears_review_witness :
    ∃ q2, currentQuestion (handleOptionChange "att" "ex" "x"
        (run "att" "ex" (loadedState exRaw) [Op.markForReview])).1 = some q2 ∧
      q2.badgeClass = "badge answered" ∧ q2.reviewed = false :=
  selectOption_clears_review "att" "ex" "x"
    (run "att" "ex" (loadedState exRaw) [Op.markForReview])
    { questionId := "q1"
      questionText := "t1"
      optionList := buildOptions 0 ["x", "y"]
      badgeClass := "badge review"
      questionNumber := 1
      reviewed := true }
    (by decide) rfl rfl (by decide)

/-! ### Loader labelling -/

theorem buildOptions_length : ∀ (i : Nat) (opts : List String),
    (buildOptions i opts).length = opts.length := by
  intro i opts
  induction opts generalizing i with
  | nil => rfl
  | cons o rest ih => simp [buildOptions, ih]

theorem buildOptions_get? : ∀ (opts : List String) (i k : Nat),
    (buildOptions i opts).get? k = (opts.get? k).map fun s => buildOption (i + k) s := by
  intro opts
  induction opts with
  | nil => intro i k; rfl
  | cons o rest ih =>
    intro i k
    cases k with
    | zero => rfl
    | succ k =>
      show (buildOptions (i + 1) rest).get? k =
        (rest.get? k).map fun s => buildOption (i + (k + 1)) s
      rw [ih (i + 1) k]
      rw [show (i + 1) + k = i + (k + 1) from by omega]

/-- C7 counterexample: a question with five options gets the label
"undefined: e" for its fifth option, because the letter array stops at
"D"; so not every label is of the form "<letter>: <option text>". -/
theorem fifth_option_label_undefined :
    ((loadQuestions fiveRaw).map fun q => q.optionList.map fun o => o.label)
      = [["A: a", "B: b", "C: c", "D: d", "undefined: e"]] ∧
    "undefined: e" ≠ "E: e" := by
  constructor
  · decide
  · decide

/-- C7 amended: the loader assigns display number = 1-based position,
reviewed=false, badge "badge unanswered", selected=false everywhere, and
labels option i with the i-th letter of A, B, C, D followed by ": " and
the option text, for the first four options of each question (a fifth or
later option gets the prefix "undefined" instead). -/
theorem loader_shape (raw : List RawQuestion) (k : Nat) (r : RawQuestion)
    (hk : raw.get? k = some r) :
    ∃ q, (loadQuestions raw).get? k = some q ∧
      q.questionNumber = k + 1 ∧ q.reviewed = false ∧
      q.badgeClass = "badge unanswered" ∧
      q.questionId = r.questionId ∧ q.questionText = r.questionText ∧
      q.optionList.length = r.options.length ∧
      ∀ i s lbl, r.options.get? i = some s →
        ["A", "B", "C", "D"].get? i = some lbl →
        ∃ o, q.optionList.get? i = some o ∧
          o.label = lbl ++ ": " ++ s ∧ o.checked = false ∧ o.cssClass = "option" := by
  refine ⟨buildQuestion (0 + k) r, ?_, ?_, rfl, rfl, rfl, rfl, ?_, ?_⟩
  · unfold loadQuestions
    rw [buildQuestions_get? raw 0 k, hk]
    rfl
  · show (0 + k) + 1 = k + 1
    omega
  · show (buildOptions 0 r.options).length = r.options.length
    exact buildOptions_length 0 r.options
  · intro i s lbl hs hlbl
    show ∃ o, (buildOptions 0 r.options).get? i = some o ∧ _
    rw [buildOptions_get? r.options 0 i, hs]
    refine ⟨buildOption (0 + i) s, rfl, ?_, rfl, rfl⟩
    show labelAt (0 + i) ++ ": " ++ s = lbl ++ ": " ++ s
    unfold labelAt labels
    rw [show (0 + i : Nat) = i from by omega, hlbl]
    rfl

theorem loader_shape_witness :
    ((loadQuestions exRaw).map fun q => q.optionList.map fun o => o.label)
      = [["A: x", "B: y"], ["A: p", "B: q", "C: r"]] ∧
    (∃ q, (loadQuestions exRaw).get? 1 = some q ∧
      q.questionNumber = 2 ∧ q.reviewed = false ∧
      q.badgeClass = "badge unanswered" ∧
      q.questionId = "q2" ∧ q.questionText = "t2" ∧
      q.optionList.length = (["p", "q", "r"] : List String).length ∧
      ∀ i s lbl, (["p", "q", "r"] : List String).get? i = some s →
        ["A", "B", "C", "D"].get? i = some lbl →
        ∃ o, q.optionList.get? i = some o ∧
          o.label = lbl ++ ": " ++ s ∧ o.checked = false ∧ o.cssClass = "option") :=
  ⟨by decide,
   loader_shape exRaw 1
    { questionId := "q2", questionText := "t2", options := ["p", "q", "r"] } rfl⟩

/-! ### No duplicates in the unanswered list -/

theorem nodup_updateUnansweredTracking (st : ExamState)
    (h : st.unansweredQuestionNumbers.Nodup) :
    (updateUnansweredTracking st).unansweredQuestionNumbers.Nodup := by
  simp only [updateUnansweredTracking]
  split
  · exact h
  · split
    · exact h.filter _
    · split
      · exact h
      · rename_i hnc
        refine List.Nodup.append h (List.nodup_singleton _) ?_
        rw [List.disjoint_singleton]
        intro hmem
        exact hnc (List.elem_iff.mpr hmem)

theorem handleReview_unanswered (st : ExamState) :
    (handleReview st).unansweredQuestionNumbers = st.unansweredQuestionNumbers := by
  unfold handleReview
  cases getQ st.questions st.currentQuestionIndex <;> rfl

theorem handleNext_unanswered (st : ExamState) :
    (handleNext st).unansweredQuestionNumbers =
      (updateUnansweredTracking st).unansweredQuestionNumbers := by
  simp only [handleNext]
  split <;> rfl

theorem handlePrevious_unanswered (st : ExamState) :
    (handlePrevious st).unansweredQuestionNumbers =
      (updateUnansweredTracking st).unansweredQuestionNumbers := by
  simp only [handlePrevious]
  split <;> rfl

theorem handleBadgeClick_unanswered (s : String) (st : ExamState) :
    (handleBadgeClick s st).unansweredQuestionNumbers = st.unansweredQuestionNumbers := by
  unfold handleBadgeClick
  cases jsParseInt s <;> rfl

theorem handleSubmit_fst_unanswered (a e : String) (st : ExamState) :
    (handleSubmit a e st).1.unansweredQuestionNumbers = unansweredScan st.questions := by
  simp only [handleSubmit]
  split <;> rfl

theorem handleOptionChange_nodup (a e v : String) (st : ExamState)
    (h : st.unansweredQuestionNumbers.Nodup) :
    (handleOptionChange a e v st).1.unansweredQuestionNumbers.Nodup := by
  simp only [handleOptionChange]
  cases getQ st.questions st.currentQuestionIndex with
  | none => exact h
  | some question =>
    dsimp only
    split <;> exact nodup_updateUnansweredTracking _ h

theorem step_nodup (a e : String) (st : ExamState) (op : Op)
    (h : st.unansweredQuestionNumbers.Nodup) :
    (step a e st op).unansweredQuestionNumbers.Nodup := by
  cases op with
  | selectOption v => exact handleOptionChange_nodup a e v st h
  | markForReview =>
    show (handleReview st).unansweredQuestionNumbers.Nodup
    rw [handleReview_unanswered]
    exact h
  | next =>
    show (handleNext st).unansweredQuestionNumbers.Nodup
    rw [handleNext_unanswered]
    exact nodup_updateUnansweredTracking st h
  | previous =>
    show (handlePrevious st).unansweredQuestionNumbers.Nodup
    rw [handlePrevious_unanswered]
    exact nodup_updateUnansweredTracking st h
  | jumpTo s =>
    show (handleBadgeClick s st).unansweredQuestionNumbers.Nodup
    rw [handleBadgeClick_unanswered]
    exact h
  | submit =>
    show (handleSubmit a e st).1.unansweredQuestionNumbers.Nodup
    rw [handleSubmit_fst_unanswered]
    exact (sorted_unansweredScanAux st.questions 0).nodup

theorem run_nodup (a e : String) : ∀ (ops : List Op) (st : ExamState),
    st.unansweredQuestionNumbers.Nodup →
    (run a e st ops).unansweredQuestionNumbers.Nodup := by
  intro ops
  induction ops with
  | nil =>
    intro st h
    exact h
  | cons op rest ih =>
    intro st h
    exact ih (step a e st op) (step_nodup a e st op h)

/-- C10: in every state reachable from a freshly loaded question sequence
by the user-level operations, the unanswered-questions list holds no
duplicate display numbers. -/
theorem unanswered_list_nodup (a e : String) (raw : List RawQuestion) (ops : List Op) :
    (run a e (loadedState raw) ops).unansweredQuestionNumbers.Nodup :=
  run_nodup a e ops (loadedState raw) List.nodup_nil

end QuizApp
